import Mathlib

/-!
A shallow embedding of the PiREye motion-surveillance script (PiREye.py),
with theorems about its monitoring loop, notification handling, teardown,
burst filenames, scheduled status pings and free-space cutoff.

The embedding follows the source. The SMTP transaction of send_mail is a
sequence of fallible transport steps with no handler, so the first failure
propagates to the caller; every call site wraps the call in try/except and
swallows the failure. The monitoring loop is a step machine over a list of
external inputs (clock advances, sensor levels, transport outcomes, capture
outcomes, free-space samples, operator interrupts). The final teardown
closes the camera, cleans the GPIO pin, and branches on the armed flag.
The wall clock is modelled in milliseconds; the calendar date mapping of
the clock is an environment parameter.
-/

namespace PiREye

/-- Settings: daily status-update times, `TIMES` in PiREye.py (line 53). -/
def TIMES : List String := ["09:00:00", "21:00:00"]

/-- Settings: the output folder location, `DIRECTORY` in PiREye.py (line 52). -/
def DIRECTORY : String := "/media/pi/STORAGE"

/-- The detections directory created at setup, `out_directory` (line 137). -/
def out_directory : String := DIRECTORY ++ "/Detections/"

/-- Decimal digit character, used to model the zero-padded fields produced
by strftime and the decimal rendering of Python str. All use sites pass
values below 10. -/
def digitCh : ℕ → Char
  | 0 => '0'
  | 1 => '1'
  | 2 => '2'
  | 3 => '3'
  | 4 => '4'
  | 5 => '5'
  | 6 => '6'
  | 7 => '7'
  | 8 => '8'
  | _ => '9'

/-- Two-digit zero-padded decimal field, as strftime produces for month,
day, hour, minute and second. -/
def pad2 (n : ℕ) : String := ⟨[digitCh (n / 10), digitCh (n % 10)]⟩

/-- Four-digit zero-padded year field of strftime. -/
def pad4 (n : ℕ) : String :=
  ⟨[digitCh (n / 1000), digitCh (n / 100 % 10), digitCh (n / 10 % 10), digitCh (n % 10)]⟩

/-- Helper for the decimal rendering of a natural number (fuel-driven). -/
def natCharsAux : ℕ → ℕ → List Char
  | 0, _ => []
  | fuel + 1, n => if n = 0 then [] else natCharsAux fuel (n / 10) ++ [digitCh (n % 10)]

/-- Python str on a natural number (decimal, no padding), used for the
1-based burst index str(i+1) of line 190. -/
def natStr (n : ℕ) : String := if n = 0 then "0" else ⟨natCharsAux n n⟩

/-- Python detection_time.replace(":", "-") of line 190: a one-character
pattern replaced by a one-character replacement is exactly a character map. -/
def replaceColon (s : String) : String :=
  ⟨s.data.map (fun c => if c = ':' then '-' else c)⟩

/-- A wall-clock datetime at seconds resolution, the data strftime reads. -/
structure Timestamp where
  year : ℕ
  month : ℕ
  day : ℕ
  hour : ℕ
  minute : ℕ
  second : ℕ
deriving DecidableEq

/-- Width bounds on the fields of a real datetime (loose bounds; only the
formatted field widths matter for the filename arguments). -/
def Timestamp.Valid (ts : Timestamp) : Prop :=
  ts.year < 10000 ∧ ts.month < 100 ∧ ts.day < 100 ∧
    ts.hour < 100 ∧ ts.minute < 100 ∧ ts.second < 100

/-- strftime "Detection %Y-%m-%d %H:%M:%S" (line 186). -/
def captionOf (ts : Timestamp) : String :=
  "Detection " ++ (pad4 ts.year ++ ("-" ++ (pad2 ts.month ++ ("-" ++ (pad2 ts.day ++
    (" " ++ (pad2 ts.hour ++ (":" ++ (pad2 ts.minute ++ (":" ++ pad2 ts.second))))))))))

/-- The detection caption after the colon-to-hyphen replacement of line 190. -/
def safeCaption (ts : Timestamp) : String :=
  "Detection " ++ (pad4 ts.year ++ ("-" ++ (pad2 ts.month ++ ("-" ++ (pad2 ts.day ++
    (" " ++ (pad2 ts.hour ++ ("-" ++ (pad2 ts.minute ++ ("-" ++ pad2 ts.second))))))))))

/-- The burst path list of line 190: five paths with 1-based indices. -/
def burstSequence (outDir caption : String) : List String :=
  (List.range 5).map (fun i => outDir ++ replaceColon caption ++ "_" ++ natStr (i + 1) ++ ".jpg")

/-- Line 205: disk_usage(DIRECTORY)[2] / 1000000000 <= 5. Python's true
division is modelled by the exact rational quotient free / 1000000000
(written mkRat for computability; the two are proved equal below): at
integer byte counts the comparison with 5 is unaffected by double rounding,
because any integer byte count other than 5000000000 differs from it by at
least one byte while the rounding error of the quotient near 5 is far
below 1e-6 of a byte. -/
def lowSpace (free : ℕ) : Bool := decide (mkRat free 1000000000 ≤ 5)

/-- Transport failures named by the specification. -/
inductive TransportError
  | unreachable
  | authFailure
  | timeout
deriving DecidableEq

/-- Outcome of each step of one SMTP transaction: none means the step
succeeds, some e means it raises e. -/
structure Transport where
  connect : Option TransportError
  ehloA : Option TransportError
  tls : Option TransportError
  ehloB : Option TransportError
  login : Option TransportError
  transmit : Option TransportError
deriving DecidableEq

/-- Run one fallible transport step. -/
def stepRes : Option TransportError → Except TransportError Unit
  | none => Except.ok ()
  | some e => Except.error e

/-- send_mail (lines 58-79): SMTP connect (with timeout), ehlo, starttls,
ehlo, login, sendmail, executed in sequence with no exception handler, so
the first failing step propagates to the caller as an error. -/
def send_mail (t : Transport) : Except TransportError Unit := do
  stepRes t.connect
  stepRes t.ehloA
  stepRes t.tls
  stepRes t.ehloB
  stepRes t.login
  stepRes t.transmit

/-- The try/except-pass wrapper placed around send_mail at every call site
(lines 154-164, 172-182, 193-203, 224-235): a propagated error is
swallowed and the caller continues normally. -/
def guardedSend (t : Transport) : Except TransportError Unit :=
  match send_mail t with
  | Except.ok u => Except.ok u
  | Except.error _ => Except.ok ()

/-- Whether the wrapped attempt actually transmitted. -/
def sendOk (t : Transport) : Bool :=
  match send_mail t with
  | Except.ok _ => true
  | Except.error _ => false

/-- strftime "%H:%M:%S" of a clock reading, the clock being milliseconds;
the second of day is now / 1000 % 86400. -/
def hmsColon (now : ℕ) : String :=
  pad2 (now / 1000 % 86400 / 3600) ++ ":" ++
    pad2 (now / 1000 % 86400 % 3600 / 60) ++ ":" ++ pad2 (now / 1000 % 86400 % 60)

/-- strftime "Detection %Y-%m-%d %H:%M:%S" at a clock reading inside the
loop; the calendar date of the reading is supplied by the environment. -/
def runCaption (dateOf : ℕ → String) (now : ℕ) : String :=
  "Detection " ++ dateOf now ++ " " ++ hmsColon now

/-- Control position in the armed loop: outer = about to run the scheduled
status check of line 168, inner = about to run the detection body of lines
186-207 (the last PIR read was 1). -/
inductive Phase
  | outer
  | inner
deriving DecidableEq

/-- How an armed monitoring loop ends. -/
inductive ExitReason
  | lowSpace
  | captureFail
  | interrupted
deriving DecidableEq

/-- Notifications and captures recorded while armed. -/
inductive Event
  | armedPing (ok : Bool)
  | schedPing (time : ℕ) (ok : Bool)
  | detection (time : ℕ) (paths : List String) (ok : Bool)
deriving DecidableEq

/-- External inputs consumed by one step of the monitoring loop: whether an
operator interrupt arrives at the step, elapsed milliseconds before the
step's clock read, elapsed milliseconds between the two clock reads of a
matched schedule block, extra oversleep of time.sleep(1), the PIR level
read at the step, whether capture_sequence completes, the free bytes a
disk_usage read would report, and the transport behaviour of a send_mail
attempt made at the step. -/
structure Tick where
  interrupt : Bool
  dt : ℕ
  dt2 : ℕ
  sleepDt : ℕ
  sensor : Bool
  captureOk : Bool
  free : ℕ
  mailT : Transport
deriving DecidableEq

/-- Phase after a PIR read (line 185's while condition). -/
def phaseOf (b : Bool) : Phase := if b then Phase.inner else Phase.outer

/-- The armed monitoring loop (lines 167-207) as a step machine over the
external inputs. One Tick is consumed per basic block: in Phase.outer the
scheduled-status check of lines 168-182 runs (clock read at now + dt; on a
match, the update read at + dt2, the 1-second anti-retrigger sleep, and a
guarded send) and then the PIR level of line 185 is read; in Phase.inner
the detection body of lines 186-207 runs (caption read at now + dt, burst
capture, guarded send with the burst attached, free-space check) and then
the PIR level is re-read. Returns the events produced and the exit, if
any; none means the input list ran out with the loop still monitoring. -/
def loop (dateOf : ℕ → String) (outDir : String) :
    ℕ → Phase → List Tick → List Event × Option ExitReason
  | _, _, [] => ([], none)
  | now, ph, t :: rest =>
    if t.interrupt then ([], some ExitReason.interrupted)
    else
      match ph with
      | Phase.outer =>
        if hmsColon (now + t.dt) ∈ TIMES then
          (Event.schedPing (now + t.dt + t.dt2) (sendOk t.mailT) ::
              (loop dateOf outDir (now + t.dt + t.dt2 + 1000 + t.sleepDt)
                (phaseOf t.sensor) rest).1,
            (loop dateOf outDir (now + t.dt + t.dt2 + 1000 + t.sleepDt)
              (phaseOf t.sensor) rest).2)
        else loop dateOf outDir (now + t.dt) (phaseOf t.sensor) rest
      | Phase.inner =>
        if t.captureOk then
          if lowSpace t.free then
            ([Event.detection (now + t.dt)
                (burstSequence outDir (runCaption dateOf (now + t.dt))) (sendOk t.mailT)],
              some ExitReason.lowSpace)
          else
            (Event.detection (now + t.dt)
                (burstSequence outDir (runCaption dateOf (now + t.dt))) (sendOk t.mailT) ::
                (loop dateOf outDir (now + t.dt) (phaseOf t.sensor) rest).1,
              (loop dateOf outDir (now + t.dt) (phaseOf t.sensor) rest).2)
        else ([], some ExitReason.captureFail)

/-- Substring test on character lists, modelling Python's `in` on strings. -/
def containsSub (pat : List Char) : List Char → Bool
  | [] => pat.isPrefixOf []
  | c :: rest => pat.isPrefixOf (c :: rest) || containsSub pat rest

/-- Line 118: "wlan0:" in str(subprocess.check_output("ifconfig")). -/
def wifiUp (ifconfigOut : String) : Bool :=
  containsSub "wlan0:".data ifconfigOut.data

/-- ASCII lower-casing of a character, modelling Python str.lower on the
prompt input. -/
def lowerChar (c : Char) : Char :=
  if 'A' ≤ c ∧ c ≤ 'Z' then Char.ofNat (c.toNat + 32) else c

/-- Python input(...).lower() (line 124). -/
def strLower (s : String) : String := ⟨s.data.map lowerChar⟩

/-- Lines 123-128: prompt until input().lower() is "y" or "n"; none models
the input stream running out first (EOF raises, reaching the generic
Exception handler just like a rejected datetime). -/
def firstAnswer : List String → Option String
  | [] => none
  | a :: rest =>
    if strLower a = "y" ∨ strLower a = "n" then some (strLower a) else firstAnswer rest

/-- External inputs of one whole process run. -/
structure RunInput where
  ifconfigOut : String
  answers : List String
  preArmInterrupt : Bool
  now0 : ℕ
  armedT : Transport
  ticks : List Tick
  disarmT : Transport
deriving DecidableEq

/-- How the run ended: aborted before arming, exited the armed loop, or
still monitoring when the modelled inputs ran out. -/
inductive Termination
  | preAbort
  | exited (e : ExitReason)
  | running
deriving DecidableEq

/-- Observable outcome of one process run: the armed flag, the notification
and capture events, how the run ended, and what the finally block did. -/
structure RunResult where
  armedReached : Bool
  events : List Event
  term : Termination
  cameraClosed : ℕ
  gpioCleaned : ℕ
  cancelledLogged : Bool
  disarmAttempts : ℕ
  disarmOk : Bool
deriving DecidableEq

/-- Teardown on a path where the armed flag was never set (lines 216-220):
close the camera, clean the GPIO pin, log the cancellation, and make no
disarm-notification attempt. -/
def cancelledResult : RunResult :=
  { armedReached := false, events := [], term := Termination.preAbort,
    cameraClosed := 1, gpioCleaned := 1, cancelledLogged := true,
    disarmAttempts := 0, disarmOk := false }

/-- Assemble the result of a run that reached the armed state from the loop
outcome, applying the finally block (lines 216-235) when the loop exited:
the camera is closed, the GPIO pin is cleaned, and exactly one guarded
disarm-notification attempt is made. -/
def armedResult (armedOk disarmOk : Bool) : List Event × Option ExitReason → RunResult
  | (evs, none) =>
    { armedReached := true, events := Event.armedPing armedOk :: evs,
      term := Termination.running, cameraClosed := 0, gpioCleaned := 0,
      cancelledLogged := false, disarmAttempts := 0, disarmOk := false }
  | (evs, some e) =>
    { armedReached := true, events := Event.armedPing armedOk :: evs,
      term := Termination.exited e, cameraClosed := 1, gpioCleaned := 1,
      cancelledLogged := false, disarmAttempts := 1, disarmOk := disarmOk }

/-- One whole process run (lines 110-235): the WiFi precondition gate, the
datetime confirmation gate, the pre-arm interrupt window, then arming (the
armed flag, the armed ping) and the monitoring loop, and finally teardown. -/
def run (dateOf : ℕ → String) (inp : RunInput) : RunResult :=
  if wifiUp inp.ifconfigOut then cancelledResult
  else if firstAnswer inp.answers ≠ some "y" then cancelledResult
  else if inp.preArmInterrupt then cancelledResult
  else armedResult (sendOk inp.armedT) (sendOk inp.disarmT)
    (loop dateOf out_directory inp.now0 Phase.outer inp.ticks)

/-- Times of the scheduled status pings among the recorded events. -/
def schedTimesOf : List Event → List ℕ
  | [] => []
  | Event.schedPing t _ :: rest => t :: schedTimesOf rest
  | _ :: rest => schedTimesOf rest

/-- Number of detection events (capture-plus-notify cycles). -/
def countDet : List Event → ℕ
  | [] => 0
  | Event.detection _ _ _ :: rest => countDet rest + 1
  | _ :: rest => countDet rest

/-- Number of active PIR readings in a list of inputs. -/
def countTrue (ticks : List Tick) : ℕ := ticks.countP (fun t => t.sensor)

/-- The burst path lists of the run's detection events, in order. -/
def detPathsList (r : RunResult) : List (List String) :=
  r.events.filterMap (fun e =>
    match e with
    | Event.detection _ p _ => some p
    | _ => none)

/-- Erase transmission outcomes from an event. -/
def eraseEv : Event → Event
  | Event.armedPing _ => Event.armedPing true
  | Event.schedPing t _ => Event.schedPing t true
  | Event.detection t p _ => Event.detection t p true

/-- Erase transmission outcomes from a run's result, keeping the attempts
themselves, the control flow and everything else observable. -/
def eraseResult (r : RunResult) : RunResult :=
  { r with events := r.events.map eraseEv, disarmOk := true }

/-- Two loop inputs that agree on everything except transport behaviour. -/
def TickSame (a b : Tick) : Prop :=
  a.interrupt = b.interrupt ∧ a.dt = b.dt ∧ a.dt2 = b.dt2 ∧ a.sleepDt = b.sleepDt ∧
    a.sensor = b.sensor ∧ a.captureOk = b.captureOk ∧ a.free = b.free

/-- Two run inputs that agree on everything except transport behaviour. -/
def InputSame (i j : RunInput) : Prop :=
  i.ifconfigOut = j.ifconfigOut ∧ i.answers = j.answers ∧
    i.preArmInterrupt = j.preArmInterrupt ∧ i.now0 = j.now0 ∧
    List.Forall₂ TickSame i.ticks j.ticks

/-- Loop inputs that trigger no terminal condition: no operator interrupt,
capture succeeds, free space stays above the cutoff. -/
def Benign (ticks : List Tick) : Prop :=
  ∀ t ∈ ticks, t.interrupt = false ∧ t.captureOk = true ∧ lowSpace t.free = false

/-- Loop inputs on which the PIR never reports motion. -/
def AllQuiet (ticks : List Tick) : Prop := ∀ t ∈ ticks, t.sensor = false

/-- Disjointness of two lists of file paths. -/
def PathsDisjoint (xs ys : List String) : Prop := ∀ p ∈ xs, p ∉ ys

instance (ts : Timestamp) : Decidable ts.Valid := by
  unfold Timestamp.Valid
  exact inferInstance

instance (a b : Tick) : Decidable (TickSame a b) := by
  unfold TickSame
  exact inferInstance

instance (ticks : List Tick) : Decidable (Benign ticks) := by
  unfold Benign
  exact inferInstance

instance (ticks : List Tick) : Decidable (AllQuiet ticks) := by
  unfold AllQuiet
  exact inferInstance

instance (xs ys : List String) : Decidable (PathsDisjoint xs ys) := by
  unfold PathsDisjoint
  exact inferInstance

/-- A transport on which every SMTP step succeeds. -/
def okT : Transport :=
  { connect := none, ehloA := none, tls := none, ehloB := none,
    login := none, transmit := none }

/-- A transport whose server is unreachable: the connect step fails. -/
def unreachableT : Transport := { okT with connect := some TransportError.unreachable }

/-- A fixed environment calendar for concrete evaluations. -/
def dateOf0 : ℕ → String := fun _ => "2021-01-01"

/-- A loop input with no motion and plenty of free space. -/
def quietTick : Tick :=
  { interrupt := false, dt := 0, dt2 := 0, sleepDt := 0, sensor := false,
    captureOk := true, free := 100000000000, mailT := okT }

/-- A loop input reporting motion. -/
def motionTick : Tick := { quietTick with sensor := true }

/-- A loop input whose free-space sample sits exactly at the cutoff. -/
def lowTick : Tick := { quietTick with free := 5000000000 }

/-- A run input that passes all preconditions and sees no loop input. -/
def baseInput : RunInput :=
  { ifconfigOut := "eth0: flags", answers := ["y"], preArmInterrupt := false,
    now0 := 0, armedT := okT, ticks := [], disarmT := okT }

/-- A run input whose ifconfig output shows the WiFi interface up. -/
def wifiInput : RunInput := { baseInput with ifconfigOut := "wlan0: flags" }

/-- A run that detects motion once and then hits the free-space cutoff. -/
def lowSpaceInput : RunInput := { baseInput with ticks := [motionTick, lowTick] }

/-- A run with two detection bodies executing within the same wall-clock
second (no time elapses between the two caption reads). -/
def samePathsInput : RunInput :=
  { baseInput with ticks := [motionTick, motionTick, quietTick] }

/-- The burst paths of a detection whose caption is read at clock 0. -/
def samplePaths : List String := burstSequence out_directory (runCaption dateOf0 0)

/-- A loop input at the cutoff whose transport fails. -/
def failLowTick : Tick := { lowTick with mailT := unreachableT }

/-- A quiet loop input with zero free bytes. -/
def zeroFreeTick : Tick := { quietTick with free := 0 }

/-- Like lowSpaceInput but with both standing transports failing and the
detection-time transport failing: same non-transport inputs throughout. -/
def mailFailInput : RunInput :=
  { baseInput with
      armedT := unreachableT
      disarmT := unreachableT
      ticks := [motionTick, failLowTick] }

/-- A run input with one quiet loop input whose free-space sample is zero. -/
def quietLowInput : RunInput := { baseInput with ticks := [zeroFreeTick] }

/-- Two distinct valid detection timestamps one second apart. -/
def tsA : Timestamp := ⟨2021, 1, 1, 0, 0, 0⟩

/-- Second sample timestamp. -/
def tsB : Timestamp := ⟨2021, 1, 1, 0, 0, 1⟩

theorem dataAppend : ∀ (a b : String), (a ++ b).data = a.data ++ b.data
  | ⟨_⟩, ⟨_⟩ => rfl

theorem digitCh_ne_colon (d : ℕ) : digitCh d ≠ ':' := by
  rcases d with _ | _ | _ | _ | _ | _ | _ | _ | _ | d <;> exact of_decide_eq_true rfl

theorem digitCh_inj {a b : ℕ} (ha : a < 10) (hb : b < 10)
    (h : digitCh a = digitCh b) : a = b := by
  interval_cases a <;> interval_cases b <;> revert h <;> decide

theorem replaceColon_append (a b : String) :
    replaceColon (a ++ b) = replaceColon a ++ replaceColon b := by
  obtain ⟨la⟩ := a
  obtain ⟨lb⟩ := b
  exact congrArg String.mk (List.map_append _ la lb)

theorem replaceColon_pad2 (n : ℕ) : replaceColon (pad2 n) = pad2 n := by
  unfold replaceColon pad2
  simp [digitCh_ne_colon]

theorem replaceColon_pad4 (n : ℕ) : replaceColon (pad4 n) = pad4 n := by
  unfold replaceColon pad4
  simp [digitCh_ne_colon]

theorem replaceColon_captionOf (ts : Timestamp) :
    replaceColon (captionOf ts) = safeCaption ts := by
  unfold captionOf safeCaption
  simp only [replaceColon_append, replaceColon_pad2, replaceColon_pad4,
    (by decide : replaceColon "Detection " = "Detection "),
    (by decide : replaceColon "-" = "-"),
    (by decide : replaceColon " " = " "),
    (by decide : replaceColon ":" = "-")]

/-- Claim C7: every detection burst consists of exactly 5 artifact paths
whose filenames embed the detection's single timestamp (seconds
resolution, colons replaced with hyphens) followed by strictly increasing
1-based index suffixes _1 through _5 and a .jpg extension, of the form
`Detection YYYY-MM-DD HH-MM-SS_i.jpg`. -/
theorem claim_C7 (outDir : String) (ts : Timestamp) :
    burstSequence outDir (captionOf ts) =
        [outDir ++ safeCaption ts ++ "_" ++ "1" ++ ".jpg",
         outDir ++ safeCaption ts ++ "_" ++ "2" ++ ".jpg",
         outDir ++ safeCaption ts ++ "_" ++ "3" ++ ".jpg",
         outDir ++ safeCaption ts ++ "_" ++ "4" ++ ".jpg",
         outDir ++ safeCaption ts ++ "_" ++ "5" ++ ".jpg"] ∧
      (burstSequence outDir (captionOf ts)).length = 5 := by
  constructor
  · unfold burstSequence
    rw [replaceColon_captionOf]
    rfl
  · simp [burstSequence]

/-- Claim C3: the free-space cutoff is the exact quotient of the free byte
count by 1000000000 compared inclusively with 5, which for every integer
number of free bytes is equivalent to free ≤ 5000000000; in particular
exactly 5000000000 free bytes ends monitoring and 5000000001 does not. -/
theorem claim_C3 :
    (∀ free : ℕ, lowSpace free = true ↔ (free : ℚ) / 1000000000 ≤ 5) ∧
      (∀ free : ℕ, lowSpace free = true ↔ free ≤ 5000000000) ∧
      lowSpace 5000000000 = true ∧ lowSpace 5000000001 = false := by
  have key : ∀ free : ℕ, lowSpace free = true ↔ (free : ℚ) / 1000000000 ≤ 5 := by
    intro free
    unfold lowSpace
    rw [decide_eq_true_iff, Rat.mkRat_eq_div]
    norm_num
  have key2 : ∀ free : ℕ, lowSpace free = true ↔ free ≤ 5000000000 := by
    intro free
    rw [key free, div_le_iff₀ (by norm_num : (0 : ℚ) < 1000000000)]
    rw [show (5 : ℚ) * 1000000000 = ((5000000000 : ℕ) : ℚ) by norm_num, Nat.cast_le]
  refine ⟨key, key2, ?_, ?_⟩
  · rw [key2]
  · rw [Bool.eq_false_iff]
    intro hc
    exact absurd ((key2 _).mp hc) (by norm_num)

/-- Claim C4, counterexample: the mail-sending function itself does not
return normally on a transport failure; with an unreachable server the
connect step's error propagates to the caller. -/
theorem claim_C4_counterexample :
    send_mail unreachableT = Except.error TransportError.unreachable ∧
      send_mail unreachableT ≠ Except.ok () :=
  ⟨rfl, fun h => Except.noConfusion h⟩

/-- Claim C4, amended: send_mail propagates transport errors to its caller,
but every call site wraps it in a try/except-pass handler, and that wrapped
operation returns normally for every transport outcome. -/
theorem claim_C4 (t : Transport) : guardedSend t = Except.ok () := by
  rcases h : send_mail t with u | e <;> simp [guardedSend, h]

theorem pad2_inj {a b : ℕ} (ha : a < 100) (hb : b < 100) (h : pad2 a = pad2 b) : a = b := by
  unfold pad2 at h
  have hl := congrArg String.data h
  simp only [List.cons.injEq, and_true] at hl
  obtain ⟨h1, h2⟩ := hl
  have e1 := digitCh_inj (by omega) (by omega) h1
  have e2 := digitCh_inj (by omega) (by omega) h2
  omega

theorem pad4_inj {a b : ℕ} (ha : a < 10000) (hb : b < 10000) (h : pad4 a = pad4 b) :
    a = b := by
  unfold pad4 at h
  have hl := congrArg String.data h
  simp only [List.cons.injEq, and_true] at hl
  obtain ⟨h1, h2, h3, h4⟩ := hl
  have e1 := digitCh_inj (by omega) (by omega) h1
  have e2 := digitCh_inj (by omega) (by omega) h2
  have e3 := digitCh_inj (by omega) (by omega) h3
  have e4 := digitCh_inj (by omega) (by omega) h4
  omega

theorem safeCaption_inj {t1 t2 : Timestamp} (hv1 : t1.Valid) (hv2 : t2.Valid)
    (h : safeCaption t1 = safeCaption t2) : t1 = t2 := by
  obtain ⟨y1, mo1, d1, hr1, mi1, s1⟩ := t1
  obtain ⟨y2, mo2, d2, hr2, mi2, s2⟩ := t2
  simp only [Timestamp.Valid] at hv1 hv2
  obtain ⟨by1, bmo1, bd1, bh1, bmi1, bs1⟩ := hv1
  obtain ⟨by2, bmo2, bd2, bh2, bmi2, bs2⟩ := hv2
  have hd := congrArg String.data h
  simp only [safeCaption, dataAppend] at hd
  have r1 := (List.append_inj hd rfl).2
  have hy := (List.append_inj r1 rfl).1
  have r2 := (List.append_inj r1 rfl).2
  have r3 := (List.append_inj r2 rfl).2
  have hmo := (List.append_inj r3 rfl).1
  have r4 := (List.append_inj r3 rfl).2
  have r5 := (List.append_inj r4 rfl).2
  have hdy := (List.append_inj r5 rfl).1
  have r6 := (List.append_inj r5 rfl).2
  have r7 := (List.append_inj r6 rfl).2
  have hhr := (List.append_inj r7 rfl).1
  have r8 := (List.append_inj r7 rfl).2
  have r9 := (List.append_inj r8 rfl).2
  have hmi := (List.append_inj r9 rfl).1
  have r10 := (List.append_inj r9 rfl).2
  have hs := (List.append_inj r10 rfl).2
  simp only [Timestamp.mk.injEq]
  exact ⟨pad4_inj by1 by2 (congrArg String.mk hy),
    pad2_inj bmo1 bmo2 (congrArg String.mk hmo),
    pad2_inj bd1 bd2 (congrArg String.mk hdy),
    pad2_inj bh1 bh2 (congrArg String.mk hhr),
    pad2_inj bmi1 bmi2 (congrArg String.mk hmi),
    pad2_inj bs1 bs2 (congrArg String.mk hs)⟩

/-- Claim C9, amended: burst path sequences of two detection iterations
whose second-resolution timestamps differ are disjoint; within the same
wall-clock second, however, two iterations generate identical paths (see
the counterexample), so distinctness of the iterations alone does not give
disjointness. -/
theorem claim_C9 (outDir : String) (t1 t2 : Timestamp) (h1 : t1.Valid) (h2 : t2.Valid)
    (hne : t1 ≠ t2) :
    PathsDisjoint (burstSequence outDir (captionOf t1))
      (burstSequence outDir (captionOf t2)) := by
  intro p hp hq
  simp only [burstSequence, replaceColon_captionOf, List.mem_map, List.mem_range] at hp hq
  obtain ⟨i, hi, hpe⟩ := hp
  obtain ⟨j, hj, hqe⟩ := hq
  have hstr : outDir ++ safeCaption t1 ++ "_" ++ natStr (i + 1) ++ ".jpg" =
      outDir ++ safeCaption t2 ++ "_" ++ natStr (j + 1) ++ ".jpg" := hpe.trans hqe.symm
  have hd := congrArg String.data hstr
  simp only [dataAppend, List.append_assoc] at hd
  have h2' := (List.append_inj hd rfl).2
  have hsc : (safeCaption t1).data = (safeCaption t2).data := (List.append_inj h2' rfl).1
  exact hne (safeCaption_inj h1 h2 (congrArg String.mk hsc))

/-- Claim C9, counterexample: a run whose two detection iterations fall in
the same wall-clock second produces the same 5-path sequence twice, so the
two sequences of these distinct iterations are not disjoint and the second
burst overwrites the first. -/
theorem claim_C9_counterexample :
    detPathsList (run dateOf0 samePathsInput) = [samplePaths, samplePaths] ∧
      ¬ PathsDisjoint samplePaths samplePaths := by
  constructor
  · decide
  · decide

/-- Claim C9, witness for the amended theorem. -/
theorem claim_C9_witness :
    Timestamp.Valid tsA ∧ Timestamp.Valid tsB ∧ tsA ≠ tsB ∧
      PathsDisjoint (burstSequence out_directory (captionOf tsA))
        (burstSequence out_directory (captionOf tsB)) :=
  ⟨by decide, by decide, by decide,
    claim_C9 out_directory tsA tsB (by decide) (by decide) (by decide)⟩

theorem countTrue_cons (t : Tick) (l : List Tick) :
    countTrue (t :: l) = countTrue l + (if t.sensor then 1 else 0) := by
  simp [countTrue, List.countP_cons]

theorem div1000_lt {u x : ℕ} (h : u + 1000 ≤ x) : u / 1000 < x / 1000 := by
  have h1 : (u + 1000) / 1000 ≤ x / 1000 := Nat.div_le_div_right h
  rw [Nat.add_div_right _ (by norm_num)] at h1
  omega

theorem countTrue_dropLast_cons (t : Tick) (rest : List Tick) :
    countTrue ((t :: rest).dropLast) =
      (if phaseOf t.sensor = Phase.inner ∧ rest ≠ [] then 1 else 0) +
        countTrue rest.dropLast := by
  cases rest with
  | nil => simp [countTrue, List.dropLast]
  | cons r rs =>
    have he : (t :: r :: rs).dropLast = t :: (r :: rs).dropLast := rfl
    rw [he, countTrue_cons]
    cases hs : t.sensor
    · simp [phaseOf, hs]
    · simp [phaseOf, hs]
      omega

theorem loop_count (dateOf : ℕ → String) (outDir : String) :
    ∀ (ticks : List Tick) (now : ℕ) (ph : Phase), Benign ticks →
      countDet (loop dateOf outDir now ph ticks).1 =
          (if ph = Phase.inner ∧ ticks ≠ [] then 1 else 0) + countTrue ticks.dropLast ∧
        (loop dateOf outDir now ph ticks).2 = none := by
  intro ticks
  induction ticks with
  | nil => intro now ph _; simp [loop, countDet, countTrue]
  | cons t rest ih =>
    intro now ph hb
    obtain ⟨hint, hcap, hlow⟩ := hb t (List.mem_cons_self t rest)
    have hbr : Benign rest := fun x hx => hb x (List.mem_cons_of_mem t hx)
    cases ph with
    | outer =>
      by_cases hS : hmsColon (now + t.dt) ∈ TIMES
      · obtain ⟨ih1, ih2⟩ := ih (now + t.dt + t.dt2 + 1000 + t.sleepDt) (phaseOf t.sensor) hbr
        constructor
        · simp [loop, hint, hS, countDet, ih1, countTrue_dropLast_cons]
        · simp [loop, hint, hS, ih2]
      · obtain ⟨ih1, ih2⟩ := ih (now + t.dt) (phaseOf t.sensor) hbr
        constructor
        · simp [loop, hint, hS, ih1, countTrue_dropLast_cons]
        · simp [loop, hint, hS, ih2]
    | inner =>
      obtain ⟨ih1, ih2⟩ := ih (now + t.dt) (phaseOf t.sensor) hbr
      constructor
      · simp [loop, hint, hcap, hlow, countDet, ih1, countTrue_dropLast_cons]
        omega
      · simp [loop, hint, hcap, hlow, ih2]

theorem loop_burst_len (dateOf : ℕ → String) (outDir : String) :
    ∀ (ticks : List Tick) (now : ℕ) (ph : Phase) (tm : ℕ) (p : List String) (ok : Bool),
      Event.detection tm p ok ∈ (loop dateOf outDir now ph ticks).1 → p.length = 5 := by
  intro ticks
  induction ticks with
  | nil => intro now ph tm p ok hmem; simp [loop] at hmem
  | cons t rest ih =>
    intro now ph tm p ok hmem
    by_cases hI : t.interrupt = true
    · simp [loop, hI] at hmem
    · cases ph with
      | outer =>
        by_cases hS : hmsColon (now + t.dt) ∈ TIMES
        · simp [loop, hI, hS] at hmem
          exact ih _ _ _ _ _ hmem
        · simp [loop, hI, hS] at hmem
          exact ih _ _ _ _ _ hmem
      | inner =>
        by_cases hC : t.captureOk = true
        · by_cases hL : lowSpace t.free = true
          · simp [loop, hI, hC, hL] at hmem
            obtain ⟨h1, h2, h3⟩ := hmem
            subst h2
            simp [burstSequence]
          · simp [loop, hI, hC, hL] at hmem
            rcases hmem with ⟨h1, h2, h3⟩ | hmem
            · subst h2
              simp [burstSequence]
            · exact ih _ _ _ _ _ hmem
        · simp [loop, hI, hC] at hmem

theorem loop_sched_lb (dateOf : ℕ → String) (outDir : String) :
    ∀ (ticks : List Tick) (now : ℕ) (ph : Phase) (x : ℕ),
      x ∈ schedTimesOf (loop dateOf outDir now ph ticks).1 → now ≤ x := by
  intro ticks
  induction ticks with
  | nil => intro now ph x hx; simp [loop, schedTimesOf] at hx
  | cons t rest ih =>
    intro now ph x hx
    by_cases hI : t.interrupt = true
    · simp [loop, hI, schedTimesOf] at hx
    · cases ph with
      | outer =>
        by_cases hS : hmsColon (now + t.dt) ∈ TIMES
        · simp [loop, hI, hS, schedTimesOf] at hx
          rcases hx with rfl | hx
          · omega
          · have := ih _ _ _ hx
            omega
        · simp [loop, hI, hS] at hx
          have := ih _ _ _ hx
          omega
      | inner =>
        by_cases hC : t.captureOk = true
        · by_cases hL : lowSpace t.free = true
          · simp [loop, hI, hC, hL, schedTimesOf] at hx
          · simp [loop, hI, hC, hL, schedTimesOf] at hx
            have := ih _ _ _ hx
            omega
        · simp [loop, hI, hC, schedTimesOf] at hx

theorem loop_sched_sorted (dateOf : ℕ → String) (outDir : String) :
    ∀ (ticks : List Tick) (now : ℕ) (ph : Phase),
      (schedTimesOf (loop dateOf outDir now ph ticks).1).Pairwise
        (fun a b => a / 1000 < b / 1000) := by
  intro ticks
  induction ticks with
  | nil => intro now ph; simp [loop, schedTimesOf]
  | cons t rest ih =>
    intro now ph
    by_cases hI : t.interrupt = true
    · simp [loop, hI, schedTimesOf]
    · cases ph with
      | outer =>
        by_cases hS : hmsColon (now + t.dt) ∈ TIMES
        · simp [loop, hI, hS, schedTimesOf]
          refine ⟨fun x hx => ?_, ih _ _⟩
          have hle := loop_sched_lb dateOf outDir rest _ _ x hx
          exact div1000_lt (by omega)
        · simp [loop, hI, hS]
          exact ih _ _
      | inner =>
        by_cases hC : t.captureOk = true
        · by_cases hL : lowSpace t.free = true
          · simp [loop, hI, hC, hL, schedTimesOf]
          · simp [loop, hI, hC, hL, schedTimesOf]
            exact ih _ _
        · simp [loop, hI, hC, schedTimesOf]

/-- Claim C8: the scheduled status pings of a whole run occur at strictly
increasing wall-clock seconds, so for every configured schedule entry and
every wall-clock second matching it, at most one scheduled ping fires
during that second, no matter how often the loop polls within it: the
1-second anti-retrigger sleep forces the next schedule check into a later
second. -/
theorem claim_C8 (dateOf : ℕ → String) (inp : RunInput) :
    (schedTimesOf (run dateOf inp).events).Pairwise (fun a b => a / 1000 < b / 1000) := by
  unfold run
  by_cases hw : wifiUp inp.ifconfigOut = true
  · simp [hw, cancelledResult, schedTimesOf]
  · by_cases ha : firstAnswer inp.answers = some "y"
    · by_cases hp : inp.preArmInterrupt = true
      · simp [hw, ha, hp, cancelledResult, schedTimesOf]
      · rcases hP : loop dateOf out_directory inp.now0 Phase.outer inp.ticks with ⟨evs, ex⟩
        have hs := loop_sched_sorted dateOf out_directory inp.ticks inp.now0 Phase.outer
        rw [hP] at hs
        cases ex with
        | none =>
          simp [hw, ha, hp, hP, armedResult, schedTimesOf]
          exact hs
        | some e =>
          simp [hw, ha, hp, hP, armedResult, schedTimesOf]
          exact hs
    · simp [hw, ha, cancelledResult, schedTimesOf]

theorem loop_quiet (dateOf : ℕ → String) (outDir : String) :
    ∀ (ticks : List Tick) (now : ℕ), AllQuiet ticks →
      (loop dateOf outDir now Phase.outer ticks).2 ≠ some ExitReason.lowSpace := by
  intro ticks
  induction ticks with
  | nil => intro now _; simp [loop]
  | cons t rest ih =>
    intro now hq
    have hsens : t.sensor = false := hq t (List.mem_cons_self t rest)
    have hqr : AllQuiet rest := fun x hx => hq x (List.mem_cons_of_mem t hx)
    by_cases hI : t.interrupt = true
    · simp [loop, hI]
    · by_cases hS : hmsColon (now + t.dt) ∈ TIMES
      · simp [loop, hI, hS, hsens, phaseOf]
        exact ih _ hqr
      · simp [loop, hI, hS, hsens, phaseOf]
        exact ih _ hqr

/-- Claim C10: the free-space condition is evaluated only inside the
detection body, so a run on which the sensor never reports motion never
ends with the low-space cutoff, no matter how low the free-space samples
fall. -/
theorem claim_C10 (dateOf : ℕ → String) (inp : RunInput) (h : AllQuiet inp.ticks) :
    (run dateOf inp).term ≠ Termination.exited ExitReason.lowSpace := by
  unfold run
  by_cases hw : wifiUp inp.ifconfigOut = true
  · simp [hw, cancelledResult]
  · by_cases ha : firstAnswer inp.answers = some "y"
    · by_cases hp : inp.preArmInterrupt = true
      · simp [hw, ha, hp, cancelledResult]
      · rcases hP : loop dateOf out_directory inp.now0 Phase.outer inp.ticks with ⟨evs, ex⟩
        have hq := loop_quiet dateOf out_directory inp.ticks inp.now0 h
        rw [hP] at hq
        cases ex with
        | none => simp [hw, ha, hp, hP, armedResult]
        | some e =>
          simp [hw, ha, hp, hP, armedResult]
          exact fun hco => hq (by rw [hco])
    · simp [hw, ha, cancelledResult]

/-- Claim C10, witness: a quiet run with a zero free-space sample does not
end with the low-space cutoff. -/
theorem claim_C10_witness :
    AllQuiet quietLowInput.ticks ∧
      (run dateOf0 quietLowInput).term ≠ Termination.exited ExitReason.lowSpace :=
  ⟨by decide, claim_C10 dateOf0 quietLowInput (by decide)⟩

/-- Claim C2: on terminal-condition-free inputs whose final PIR poll is
inactive, the number of detection events equals the number of active PIR
polls: every polling iteration inside a contiguous run of active readings
produces its own capture-plus-notify cycle (so N consecutive active polls
yield N cycles, not one per run), and every one of those cycles carries a
burst of exactly 5 paths together with its own notification attempt. -/
theorem claim_C2 (dateOf : ℕ → String) (outDir : String) (ticks : List Tick) (tF : Tick)
    (now : ℕ) (hb : Benign (ticks ++ [tF])) (hF : tF.sensor = false) :
    countDet (loop dateOf outDir now Phase.outer (ticks ++ [tF])).1 =
        countTrue (ticks ++ [tF]) ∧
      ∀ (tm : ℕ) (p : List String) (ok : Bool),
        Event.detection tm p ok ∈ (loop dateOf outDir now Phase.outer (ticks ++ [tF])).1 →
          p.length = 5 := by
  constructor
  · obtain ⟨h1, -⟩ := loop_count dateOf outDir (ticks ++ [tF]) now Phase.outer hb
    rw [h1, List.dropLast_concat]
    simp [countTrue, List.countP_append, hF]
  · exact fun tm p ok => loop_burst_len dateOf outDir _ _ _ tm p ok

/-- Claim C2, witness: two active polls followed by inactive ones yield
exactly two detection events. -/
theorem claim_C2_witness :
    Benign ([motionTick, motionTick, quietTick] ++ [quietTick]) ∧ quietTick.sensor = false ∧
      (countDet (loop dateOf0 out_directory 0 Phase.outer
            ([motionTick, motionTick, quietTick] ++ [quietTick])).1 =
          countTrue ([motionTick, motionTick, quietTick] ++ [quietTick]) ∧
        ∀ (tm : ℕ) (p : List String) (ok : Bool),
          Event.detection tm p ok ∈ (loop dateOf0 out_directory 0 Phase.outer
              ([motionTick, motionTick, quietTick] ++ [quietTick])).1 →
            p.length = 5) :=
  ⟨by decide, by decide,
    claim_C2 dateOf0 out_directory [motionTick, motionTick, quietTick] quietTick 0
      (by decide) (by decide)⟩

theorem loop_mailFree (dateOf : ℕ → String) (outDir : String) {l m : List Tick}
    (h : List.Forall₂ TickSame l m) : ∀ (now : ℕ) (ph : Phase),
    (loop dateOf outDir now ph l).1.map eraseEv =
        (loop dateOf outDir now ph m).1.map eraseEv ∧
      (loop dateOf outDir now ph l).2 = (loop dateOf outDir now ph m).2 := by
  induction h with
  | nil => exact fun now ph => ⟨rfl, rfl⟩
  | @cons a b l' m' hab htail ih =>
    intro now ph
    obtain ⟨hint, hdt, hdt2, hsleep, hsens, hcap, hfree⟩ := hab
    cases ph with
    | outer =>
      by_cases hI : a.interrupt = true
      · simp [loop, hI, ← hint]
      · by_cases hS : hmsColon (now + a.dt) ∈ TIMES
        · obtain ⟨ih1, ih2⟩ := ih (now + a.dt + a.dt2 + 1000 + a.sleepDt) (phaseOf a.sensor)
          simp [loop, hI, hS, ← hint, ← hdt, ← hdt2, ← hsleep, ← hsens, eraseEv, ih1, ih2]
        · obtain ⟨ih1, ih2⟩ := ih (now + a.dt) (phaseOf a.sensor)
          simp [loop, hI, hS, ← hint, ← hdt, ← hsens, ih1, ih2]
    | inner =>
      by_cases hI : a.interrupt = true
      · simp [loop, hI, ← hint]
      · by_cases hC : a.captureOk = true
        · by_cases hL : lowSpace a.free = true
          · simp [loop, hI, hC, hL, ← hint, ← hdt, ← hcap, ← hfree, eraseEv]
          · obtain ⟨ih1, ih2⟩ := ih (now + a.dt) (phaseOf a.sensor)
            simp [loop, hI, hC, hL, ← hint, ← hdt, ← hcap, ← hfree, ← hsens, eraseEv, ih1, ih2]
        · simp [loop, hI, hC, ← hint, ← hcap]

/-- Claim C5: the run's observable behaviour with transmission outcomes
erased is identical for any two input histories that agree on everything
except transport behaviour: every exception of a transmission is caught at
its call site, no retry is performed (the erased event sequences are
identical, so the attempts are the same), and the loop and the teardown
continue exactly as on success. -/
theorem claim_C5 (dateOf : ℕ → String) (i j : RunInput) (h : InputSame i j) :
    eraseResult (run dateOf i) = eraseResult (run dateOf j) := by
  obtain ⟨h1, h2, h3, h4, h5⟩ := h
  unfold run
  rw [h1, h2, h3, h4]
  by_cases hw : wifiUp j.ifconfigOut = true
  · simp [hw]
  · by_cases ha : firstAnswer j.answers = some "y"
    · by_cases hp : j.preArmInterrupt = true
      · simp [hw, ha, hp]
      · obtain ⟨e1, e2⟩ := loop_mailFree dateOf out_directory h5 j.now0 Phase.outer
        rcases hP1 : loop dateOf out_directory j.now0 Phase.outer i.ticks with ⟨evs1, ex1⟩
        rcases hP2 : loop dateOf out_directory j.now0 Phase.outer j.ticks with ⟨evs2, ex2⟩
        rw [hP1, hP2] at e1 e2
        simp only [hw, ha, hp, if_false, hP1, hP2]
        cases ex1 with
        | none =>
          cases ex2 with
          | none => simp [armedResult, eraseResult, eraseEv, e1]
          | some e => exact absurd e2 (by simp)
        | some e =>
          cases ex2 with
          | none => exact absurd e2 (by simp)
          | some e' =>
            simp only [Option.some.injEq] at e2
            subst e2
            simp [armedResult, eraseResult, eraseEv, e1]
    · simp [hw, ha]

/-- Claim C5, witness: a detecting run ending at the cutoff, with every
transport working in one history and failing in the other, erases to the
same observable result. -/
theorem claim_C5_witness :
    InputSame lowSpaceInput mailFailInput ∧
      eraseResult (run dateOf0 lowSpaceInput) = eraseResult (run dateOf0 mailFailInput) :=
  have hsame : InputSame lowSpaceInput mailFailInput :=
    ⟨rfl, rfl, rfl, rfl,
      List.Forall₂.cons ⟨rfl, rfl, rfl, rfl, rfl, rfl, rfl⟩
        (List.Forall₂.cons ⟨rfl, rfl, rfl, rfl, rfl, rfl, rfl⟩ List.Forall₂.nil)⟩
  ⟨hsame, claim_C5 dateOf0 lowSpaceInput mailFailInput hsame⟩

/-- Claim C1: on every terminated run, a disarm notification is attempted
exactly once if the armed state was ever reached and never otherwise; a
precondition failure (WiFi up, rejected or exhausted datetime confirmation,
pre-arm interrupt) leads to teardown with a cancellation log and zero
disarm-notification attempts, and the armed state is reached exactly when
all preconditions pass. -/
theorem claim_C1 (dateOf : ℕ → String) (inp : RunInput)
    (h : (run dateOf inp).term ≠ Termination.running) :
    ((run dateOf inp).disarmAttempts = 1 ↔ (run dateOf inp).armedReached = true) ∧
      ((run dateOf inp).armedReached = false →
        (run dateOf inp).cancelledLogged = true ∧ (run dateOf inp).disarmAttempts = 0) ∧
      ((run dateOf inp).armedReached = true ↔
        (wifiUp inp.ifconfigOut = false ∧ firstAnswer inp.answers = some "y" ∧
          inp.preArmInterrupt = false)) := by
  unfold run at h ⊢
  by_cases hw : wifiUp inp.ifconfigOut = true
  · simp [hw, cancelledResult]
  · by_cases ha : firstAnswer inp.answers = some "y"
    · by_cases hp : inp.preArmInterrupt = true
      · simp [hw, ha, hp, cancelledResult]
      · rcases hP : loop dateOf out_directory inp.now0 Phase.outer inp.ticks with ⟨evs, ex⟩
        simp only [hw, ha, hp, hP, if_neg, if_false, ite_false, not_false_iff] at h ⊢
        cases ex with
        | none => simp [armedResult] at h
        | some e =>
          rw [Bool.not_eq_true] at hw hp
          simp [armedResult, hw, ha, hp]
    · simp [hw, ha, cancelledResult]

/-- Claim C1, witness: a run whose ifconfig output shows the WiFi interface
up aborts before arming, logging a cancellation with zero disarm attempts. -/
theorem claim_C1_witness :
    (run dateOf0 wifiInput).term ≠ Termination.running ∧
      (((run dateOf0 wifiInput).disarmAttempts = 1 ↔
          (run dateOf0 wifiInput).armedReached = true) ∧
        ((run dateOf0 wifiInput).armedReached = false →
          (run dateOf0 wifiInput).cancelledLogged = true ∧
            (run dateOf0 wifiInput).disarmAttempts = 0) ∧
        ((run dateOf0 wifiInput).armedReached = true ↔
          (wifiUp wifiInput.ifconfigOut = false ∧
            firstAnswer wifiInput.answers = some "y" ∧
            wifiInput.preArmInterrupt = false))) :=
  ⟨by decide, claim_C1 dateOf0 wifiInput (by decide)⟩

/-- Claim C6: on every terminated run, whichever terminal condition ended
it (precondition failure, rejected datetime, low-space cutoff, capture
failure, operator interrupt), the teardown closes the camera exactly once
and cleans the GPIO pin exactly once. -/
theorem claim_C6 (dateOf : ℕ → String) (inp : RunInput)
    (h : (run dateOf inp).term ≠ Termination.running) :
    (run dateOf inp).cameraClosed = 1 ∧ (run dateOf inp).gpioCleaned = 1 := by
  unfold run at h ⊢
  by_cases hw : wifiUp inp.ifconfigOut = true
  · simp [hw, cancelledResult]
  · by_cases ha : firstAnswer inp.answers = some "y"
    · by_cases hp : inp.preArmInterrupt = true
      · simp [hw, ha, hp, cancelledResult]
      · rcases hP : loop dateOf out_directory inp.now0 Phase.outer inp.ticks with ⟨evs, ex⟩
        simp only [hw, ha, hp, hP, if_neg, if_false, ite_false, not_false_iff] at h ⊢
        cases ex with
        | none => simp [armedResult] at h
        | some e => simp [armedResult]
    · simp [hw, ha, cancelledResult]

/-- Claim C6, witness: a run ending at the low-space cutoff closes the
camera once and cleans the GPIO pin once. -/
theorem claim_C6_witness :
    (run dateOf0 lowSpaceInput).term ≠ Termination.running ∧
      ((run dateOf0 lowSpaceInput).cameraClosed = 1 ∧
        (run dateOf0 lowSpaceInput).gpioCleaned = 1) :=
  ⟨by decide, claim_C6 dateOf0 lowSpaceInput (by decide)⟩

end PiREye
